import Mathlib

/-!
Shallow embedding of the tool-dispatch core of `git_helper.py` and proofs about it.

Strings are modelled as `List Char`.  External collaborators (the `git` CLI,
the OpenAI chat API, the GitHub REST API, `subprocess`) are modelled as
explicit inputs: the text a collaborator returns, or the exit status / HTTP
status it produces, is a parameter of the embedded function, and an external
side effect performed by the code is recorded in the function's result
(either as an event list or as a dedicated result constructor).

Python-specific primitive behaviour (`str.strip`, `str.split`, truthiness of
`None`/`""`, f-string formatting of `None`) is embedded by small helper
functions defined first.
-/

/-- The ASCII whitespace characters matched by `\s` in Python's `re` module and
stripped by `str.strip`: space, tab, newline, carriage return, vertical tab,
form feed. -/
def isPySpace (c : Char) : Bool :=
  c == ' ' || c == '\t' || c == '\n' || c == '\r' || c == '\x0b' || c == '\x0c'

/-- Python `str.strip()`: remove whitespace from both ends. -/
def pyStrip (l : List Char) : List Char :=
  ((l.dropWhile isPySpace).reverse.dropWhile isPySpace).reverse

/-- Python `str.split(",")`: split on every comma; `"".split(",") == [""]`. -/
def splitComma : List Char → List (List Char)
  | [] => [[]]
  | c :: cs =>
    if c = ',' then [] :: splitComma cs
    else
      match splitComma cs with
      | [] => [[c]]
      | h :: t => (c :: h) :: t

/-- Python truthiness test `not x` for an optional string argument:
true exactly when the argument is `None` or the empty string. -/
def pyFalsy (o : Option (List Char)) : Bool :=
  match o with
  | none => true
  | some s => s.isEmpty

/-- `re.match(r"(?s)(.*?)\n\n(.*)", completion)` from `create_pull_request`
(git_helper.py line 53).  The lazy first group takes the shortest prefix that
is followed by the literal `"\n\n"`; the second group takes everything after
those two newlines.  `none` models a failed match. -/
def pairSplit : List Char → Option (List Char × List Char)
  | [] => none
  | c :: cs =>
    if c = '\n' ∧ cs.head? = some '\n' then some ([], cs.tail)
    else (pairSplit cs).map (fun p => (c :: p.1, p.2))

/-- `match.groups() if match else ("Update code", completion)`
(git_helper.py line 54): the title/body pair extracted from the model's
completion, with the fallback pair on match failure. -/
def pairExtract (completion : List Char) : List Char × List Char :=
  match pairSplit completion with
  | some (t, b) => (t, b)
  | none => ("Update code".toList, completion)

theorem pairSplit_eq_none (l : List Char) (h : ¬ ['\n', '\n'] <:+: l) :
    pairSplit l = none := by
  induction l with
  | nil => rfl
  | cons c cs ih =>
    have hcond : ¬ (c = '\n' ∧ cs.head? = some '\n') := by
      rintro ⟨rfl, hh⟩
      rcases cs with _ | ⟨d, cs'⟩
      · simp at hh
      · simp at hh
        subst hh
        exact h ⟨[], cs', by simp⟩
    have hcs : ¬ ['\n', '\n'] <:+: cs := fun hi =>
      h ((List.infix_cons_iff).mpr (Or.inr hi))
    simp [pairSplit, hcond, ih hcs]

theorem pairSplit_structured (p s : List Char)
    (h : ¬ ['\n', '\n'] <:+: (p ++ ['\n'])) :
    pairSplit (p ++ '\n' :: '\n' :: s) = some (p, s) := by
  induction p with
  | nil => simp [pairSplit]
  | cons c p ih =>
    have hcond : ¬ (c = '\n' ∧ (p ++ '\n' :: '\n' :: s).head? = some '\n') := by
      rintro ⟨rfl, hh⟩
      rcases p with _ | ⟨d, p'⟩
      · exact h ⟨[], [], by simp⟩
      · simp at hh
        subst hh
        exact h ⟨[], p' ++ ['\n'], by simp⟩
    have hp : ¬ ['\n', '\n'] <:+: (p ++ ['\n']) := fun hi =>
      h ((List.infix_cons_iff).mpr (Or.inr hi))
    simp [pairSplit, hcond, ih hp]
    intro hc
    subst hc
    constructor
    · intro hh
      apply hcond
      refine ⟨rfl, ?_⟩
      rcases p with _ | ⟨d, p'⟩
      · simp at hh
      · simp at hh ⊢
        exact hh
    · intro hh
      subst hh
      exact hcond ⟨rfl, by simp⟩

/-- C4 (counterexample).  The claim states that a text with no
blank-line-separated two-NON-EMPTY-block structure yields the fallback
`("Update code", T)`.  The text `"\n\nx"` has no such structure (its first
block is empty), yet the extraction accepts it and returns `("", "x")`,
not the fallback. -/
theorem C4_pair_counterexample :
    pairExtract ('\n' :: '\n' :: ['x']) = ([], ['x']) ∧
    pairExtract ('\n' :: '\n' :: ['x']) ≠ ("Update code".toList, '\n' :: '\n' :: ['x']) := by
  decide

/-- C4 (amended): the pair-shape extraction splits at the first occurrence of
two consecutive newlines, with NO requirement that the two blocks be
non-empty: for every `T` with no `"\n\n"` occurrence it returns
`("Update code", T)`, and for every `T = p ++ "\n\n" ++ s` whose separator
shown is the first occurrence it returns exactly `(p, s)`. -/
theorem C4_pair_amended :
    (∀ T : List Char, ¬ ['\n', '\n'] <:+: T →
      pairExtract T = ("Update code".toList, T)) ∧
    (∀ p s : List Char, ¬ ['\n', '\n'] <:+: (p ++ ['\n']) →
      pairExtract (p ++ '\n' :: '\n' :: s) = (p, s)) := by
  constructor
  · intro T h
    unfold pairExtract
    rw [pairSplit_eq_none T h]
  · intro p s h
    unfold pairExtract
    rw [pairSplit_structured p s h]

/-- C4 witness: the amended theorem applied at concrete inputs. -/
theorem C4_pair_amended_witness :
    pairExtract ("hello".toList) = ("Update code".toList, "hello".toList) ∧
    pairExtract ("ab".toList ++ '\n' :: '\n' :: "cd".toList) = ("ab".toList, "cd".toList) :=
  ⟨C4_pair_amended.1 ("hello".toList) (by decide),
   C4_pair_amended.2 ("ab".toList) ("cd".toList) (by decide)⟩

/-- The literal marker `"Title:"` of the issue-parsing pattern
(git_helper.py line 127). -/
def titleMarker : List Char := "Title:".toList

/-- The literal marker `"Body:"` of the issue-parsing pattern. -/
def bodyMarker : List Char := "Body:".toList

/-- The literal marker `"Labels:"` of the issue-parsing pattern. -/
def labelsMarker : List Char := "Labels:".toList

/-- All candidate splits of a subpattern `(.*?)\n+marker`, in the order a
backtracking regex engine tries them (lazy group, shortest first).  A
candidate `(g, r)` means the input is `g ++ run ++ marker ++ r` where `run`
is a maximal non-empty newline run.  Because both markers of the pattern
begin with a non-newline character, the greedy `\n+` deterministically
consumes the whole run, so each position yields at most one candidate. -/
def lazySplits (marker : List Char) : List Char → List (List Char × List Char)
  | [] => []
  | c :: cs =>
    if c = '\n' ∧ marker <+: cs.dropWhile (fun x => x = '\n') then
      ([], (cs.dropWhile (fun x => x = '\n')).drop marker.length)
        :: (lazySplits marker cs).map (fun p => (c :: p.1, p.2))
    else (lazySplits marker cs).map (fun p => (c :: p.1, p.2))

/-- Length of the maximal leading whitespace run: the text a greedy `\s*`
consumes before any backtracking. -/
def wsMax (l : List Char) : Nat := (l.takeWhile isPySpace).length

/-- All candidate splits of a subpattern `\s*(.*?)\n+marker` in engine order:
the greedy `\s*` tries its longest match first and backtracks downwards; for
each retained whitespace length the lazy group candidates follow in
shortest-first order. -/
def wsCands (marker l : List Char) : Nat → List (List Char × List Char)
  | 0 => lazySplits marker l
  | m + 1 => lazySplits marker (l.drop (m + 1)) ++ wsCands marker l m

/-- First success of `f` over a list of candidates, in order: the
backtracking engine's leftmost-preference choice. -/
def firstSome {α β : Type} (f : α → Option β) : List α → Option β
  | [] => none
  | x :: t =>
    match f x with
    | some y => some y
    | none => firstSome f t

/-- The `Labels:` section `\s*(.*?)\n+Labels:` of the pattern.  Nothing after
it can fail (the trailing `\s*(.*)` always matches), so the engine commits to
the first candidate. -/
def labelsSection (r : List Char) : Option (List Char × List Char) :=
  (wsCands labelsMarker r (wsMax r)).head?

/-- `re.match(r"Title:\s*(.*?)\n+Body:\s*(.*?)\n+Labels:\s*(.*)", response,
re.DOTALL)` from `create_github_issue_from_error_log` (git_helper.py
line 127), returning the three captured groups.  The match is anchored at the
start (`re.match`).  Backtracking from a failed `Labels:` section into the
`Body:` section is modelled by `firstSome` over all `Body:`-section
candidates; the trailing `\s*(.*)` takes everything after the greedy
whitespace run. -/
def issueMatch (s : List Char) : Option (List Char × List Char × List Char) :=
  if titleMarker <+: s then
    firstSome
      (fun p => (labelsSection p.2).map
        (fun q => (p.1, q.1, q.2.dropWhile isPySpace)))
      (wsCands bodyMarker (s.drop titleMarker.length) (wsMax (s.drop titleMarker.length)))
  else none

/-- Lines 127-132 of git_helper.py: the structured parse of the model
response.  On match failure the original text is carried in the error; on
success the third group is split on commas and each entry stripped. -/
def issueExtract (response : List Char) :
    Except (List Char) (List Char × List Char × List (List Char)) :=
  match issueMatch response with
  | none => Except.error response
  | some (t, b, lstr) => Except.ok (t, b, (splitComma lstr).map pyStrip)

/-- Result of the issue-creation operation.  `parseError` models the early
return `{"error": "Could not parse response", "raw": response}` (line 129),
which performs NO HTTP call; `posted` models the HTTP POST of line 139 and
the returned `{"issue_url": ..., "status": ...}` dictionary (line 140), with
`status`/`htmlUrl` taken from the external HTTP response. -/
inductive IssueResult
  | parseError (raw : List Char)
  | posted (title body : List Char) (labels : List (List Char)) (status : Nat)
      (htmlUrl : Option (List Char))
deriving DecidableEq

/-- Lines 127-140 of git_helper.py.  `response` is the model completion after
the `.strip()` of line 125; `status` and `htmlUrl` are the HTTP response data
of the external POST, used only when the parse succeeds. -/
def create_github_issue_from_error_log (response : List Char) (status : Nat)
    (htmlUrl : Option (List Char)) : IssueResult :=
  match issueExtract response with
  | Except.error raw => IssueResult.parseError raw
  | Except.ok (t, b, labels) => IssueResult.posted t b labels status htmlUrl

theorem lazySplits_mem (marker l : List Char) :
    ∀ p ∈ lazySplits marker l, marker <:+: l ∧ p.2 <:+ l := by
  induction l with
  | nil => intro p hp; simp [lazySplits] at hp
  | cons c cs ih =>
    intro p hp
    by_cases hc : c = '\n' ∧ marker <+: cs.dropWhile (fun x => x = '\n')
    · rw [lazySplits, if_pos hc] at hp
      rcases List.mem_cons.mp hp with h1 | h2
      · subst h1
        have hsuf : cs.dropWhile (fun x => x = '\n') <:+ c :: cs :=
          List.IsSuffix.trans (List.dropWhile_suffix _) (List.suffix_cons c cs)
        refine ⟨List.IsInfix.trans (List.IsPrefix.isInfix hc.2) (List.IsSuffix.isInfix hsuf), ?_⟩
        exact List.IsSuffix.trans (List.drop_suffix _ _) hsuf
      · obtain ⟨q, hq, hqe⟩ := List.mem_map.mp h2
        obtain ⟨hm, hs⟩ := ih q hq
        refine ⟨(List.infix_cons_iff).mpr (Or.inr hm), ?_⟩
        rw [← hqe]
        exact List.IsSuffix.trans hs (List.suffix_cons c cs)
    · rw [lazySplits, if_neg hc] at hp
      obtain ⟨q, hq, hqe⟩ := List.mem_map.mp hp
      obtain ⟨hm, hs⟩ := ih q hq
      refine ⟨(List.infix_cons_iff).mpr (Or.inr hm), ?_⟩
      rw [← hqe]
      exact List.IsSuffix.trans hs (List.suffix_cons c cs)

theorem wsCands_mem (marker l : List Char) (m : Nat) (p : List Char × List Char)
    (hp : p ∈ wsCands marker l m) : marker <:+: l ∧ p.2 <:+ l := by
  induction m with
  | zero => exact lazySplits_mem marker l p hp
  | succ m ih =>
    rw [wsCands] at hp
    rcases List.mem_append.mp hp with h1 | h2
    · obtain ⟨hm, hs⟩ := lazySplits_mem marker (l.drop (m + 1)) p h1
      exact ⟨List.IsInfix.trans hm (List.IsSuffix.isInfix (List.drop_suffix _ _)),
        List.IsSuffix.trans hs (List.drop_suffix _ _)⟩
    · exact ih h2

theorem firstSome_eq_some {α β : Type} (f : α → Option β) (l : List α) (y : β)
    (h : firstSome f l = some y) : ∃ x ∈ l, f x = some y := by
  induction l with
  | nil => simp [firstSome] at h
  | cons a t ih =>
    rw [firstSome] at h
    cases hfa : f a with
    | some z =>
      rw [hfa] at h
      exact ⟨a, List.mem_cons_self a t, by rw [hfa]; exact h⟩
    | none =>
      rw [hfa] at h
      obtain ⟨x, hx, hfx⟩ := ih h
      exact ⟨x, List.mem_cons_of_mem a hx, hfx⟩

theorem issueMatch_markers (s : List Char) (v : List Char × List Char × List Char)
    (h : issueMatch s = some v) :
    titleMarker <+: s ∧ bodyMarker <:+: s ∧ labelsMarker <:+: s := by
  unfold issueMatch at h
  by_cases ht : titleMarker <+: s
  · rw [if_pos ht] at h
    obtain ⟨p, hpmem, hfp⟩ := firstSome_eq_some _ _ _ h
    have hbody := wsCands_mem bodyMarker (s.drop titleMarker.length) _ p hpmem
    cases hq : labelsSection p.2 with
    | none => rw [hq] at hfp; simp at hfp
    | some q =>
      have hqmem : q ∈ wsCands labelsMarker p.2 (wsMax p.2) := by
        apply List.mem_of_mem_head?
        unfold labelsSection at hq
        simp [hq]
      have hlab := wsCands_mem labelsMarker p.2 _ q hqmem
      refine ⟨ht, ?_, ?_⟩
      · exact List.IsInfix.trans hbody.1 (List.IsSuffix.isInfix (List.drop_suffix _ _))
      · exact List.IsInfix.trans hlab.1
          (List.IsSuffix.isInfix (List.IsSuffix.trans hbody.2 (List.drop_suffix _ _)))
  · rw [if_neg ht] at h
    exact absurd h (by simp)

/-- C3: if the model response given to `create_github_issue_from_error_log`
lacks any of the three literal markers `Title:`, `Body:`, `Labels:` (in
particular a response lacking `Labels:`), the operation returns the
parse-error result carrying the raw response text, and performs no HTTP call
(the `posted` constructor, the only one modelling an HTTP POST, is not
produced). -/
theorem C3_missing_marker (response : List Char) (status : Nat)
    (htmlUrl : Option (List Char))
    (h : ¬ titleMarker <:+: response ∨ ¬ bodyMarker <:+: response ∨
      ¬ labelsMarker <:+: response) :
    create_github_issue_from_error_log response status htmlUrl =
      IssueResult.parseError response := by
  cases hm : issueMatch response with
  | none => simp [create_github_issue_from_error_log, issueExtract, hm]
  | some v =>
    exfalso
    obtain ⟨h1, h2, h3⟩ := issueMatch_markers response v hm
    rcases h with h | h | h
    · exact h (List.IsPrefix.isInfix h1)
    · exact h h2
    · exact h h3

/-- C3 witness: a concrete response lacking the `Labels:` marker yields the
parse-error result. -/
theorem C3_missing_marker_witness :
    (¬ labelsMarker <:+: "no markers here".toList) ∧
    create_github_issue_from_error_log "no markers here".toList 201 none =
      IssueResult.parseError ("no markers here".toList) :=
  ⟨by decide, C3_missing_marker _ 201 none (Or.inr (Or.inr (by decide)))⟩

theorem dropWhile_eq_self_of_head (p : Char → Bool) (l : List Char)
    (h : ∀ c, l.head? = some c → p c = false) : l.dropWhile p = l := by
  rcases l with _ | ⟨c, t⟩
  · rfl
  · exact List.dropWhile_cons_of_neg (by simp [h c rfl])

/-- The JSON payload of the pull-request HTTP POST (git_helper.py
lines 62-67): `{"title": ..., "head": branch, "base": ..., "body": ...}`. -/
structure PRPayload where
  title : List Char
  head : List Char
  base : List Char
  body : List Char
deriving DecidableEq

/-- `create_pull_request` (git_helper.py lines 42-67), modelled up to the
payload it POSTs.  `base` is `none` when the caller omitted the argument, in
which case the Python signature default `"main"` applies; `branch` is the
current branch name (line 43); `completion` is the stripped model completion
of line 52, consulted only when the generative branch runs.  Line 46 tests
`if not title or not body:`, so whenever EITHER argument is `None` or empty,
BOTH `title` and `body` are reassigned from the pair extraction of the
completion (line 54). -/
def create_pull_request (base title body : Option (List Char))
    (branch completion : List Char) : PRPayload :=
  if pyFalsy title || pyFalsy body then
    ⟨(pairExtract completion).1, branch, base.getD ("main".toList),
      (pairExtract completion).2⟩
  else
    ⟨title.getD [], branch, base.getD ("main".toList), body.getD []⟩

/-- The full result of the `create_pull_request` executor (git_helper.py
lines 56-69): the payload it POSTs paired with its return value.  Line 68
performs the POST and line 69 returns `response.json()` — the API response
body — unconditionally: `httpStatus` and `responseJson` are the status code
and JSON body of the external HTTP response, and the source never inspects
the status, so the body is returned whatever the status was. -/
def create_pull_request_result (base title body : Option (List Char))
    (branch completion : List Char) (httpStatus : Nat)
    (responseJson : List Char) : PRPayload × List Char :=
  (create_pull_request base title body branch completion, responseJson)

/-- C6 (counterexample): with title supplied as `"My title"` and body
omitted, the pull-request payload carries the title extracted from the
synthesized completion, not the supplied title — the supplied argument is
NOT used unchanged. -/
theorem C6_defaults_counterexample :
    (create_pull_request none (some "My title".toList) none "br".toList
        ("Gen title".toList ++ '\n' :: '\n' :: "Gen body".toList)).title
      = "Gen title".toList ∧
    (create_pull_request none (some "My title".toList) none "br".toList
        ("Gen title".toList ++ '\n' :: '\n' :: "Gen body".toList)).title
      ≠ "My title".toList := by
  decide

/-- C6 (amended): `base` defaults to `"main"` exactly when omitted and a
supplied base is used unchanged; when BOTH title and body are supplied and
non-empty they are used unchanged in the payload; but when either of them is
absent (or empty), BOTH title and body are replaced by the pair extracted
from the synthesized completion — the supplied one is not preserved. -/
theorem C6_defaults_amended :
    (∀ t b br c, (create_pull_request none t b br c).base = "main".toList) ∧
    (∀ bs t b br c, (create_pull_request (some bs) t b br c).base = bs) ∧
    (∀ bo ts bs br c, ts ≠ [] → bs ≠ [] →
      create_pull_request bo (some ts) (some bs) br c
        = ⟨ts, br, bo.getD ("main".toList), bs⟩) ∧
    (∀ bo t b br c, (pyFalsy t || pyFalsy b) = true →
      create_pull_request bo t b br c
        = ⟨(pairExtract c).1, br, bo.getD ("main".toList), (pairExtract c).2⟩) := by
  refine ⟨?_, ?_, ?_, ?_⟩
  · intro t b br c
    unfold create_pull_request
    by_cases h : (pyFalsy t || pyFalsy b) = true
    · rw [if_pos h]
      rfl
    · rw [if_neg h]
      rfl
  · intro bs t b br c
    unfold create_pull_request
    by_cases h : (pyFalsy t || pyFalsy b) = true
    · rw [if_pos h]
      rfl
    · rw [if_neg h]
      rfl
  · intro bo ts bs br c hts hbs
    have h1 : pyFalsy (some ts) = false := by
      rcases ts with _ | ⟨c0, t0⟩
      · exact absurd rfl hts
      · rfl
    have h2 : pyFalsy (some bs) = false := by
      rcases bs with _ | ⟨c0, t0⟩
      · exact absurd rfl hbs
      · rfl
    unfold create_pull_request
    rw [h1, h2, if_neg (by simp)]
    rfl
  · intro bo t b br c h
    unfold create_pull_request
    rw [if_pos h]

/-- C6 witness: the amended theorem applied at concrete inputs (both
arguments supplied; base supplied with body omitted). -/
theorem C6_defaults_amended_witness :
    create_pull_request none (some "T".toList) (some "B".toList) "br".toList "c".toList
      = ⟨"T".toList, "br".toList, "main".toList, "B".toList⟩ ∧
    create_pull_request (some "dev".toList) (some "T".toList) none "br".toList "gc".toList
      = ⟨(pairExtract "gc".toList).1, "br".toList, "dev".toList,
          (pairExtract "gc".toList).2⟩ :=
  ⟨C6_defaults_amended.2.2.1 none "T".toList "B".toList "br".toList "c".toList
      (by decide) (by decide),
   C6_defaults_amended.2.2.2 (some "dev".toList) (some "T".toList) none "br".toList
      "gc".toList (by decide)⟩

/-- One step performed by `commit_and_push_changes`, in execution order:
reading the diff, the generative message synthesis, `git add -A`,
`git commit -m msg`, `git push`. -/
inductive GitStep
  | readDiff
  | genMessage
  | add
  | commit (msg : List Char)
  | push
deriving DecidableEq

/-- `commit_and_push_changes` (git_helper.py lines 26-40).  `genMsg` is the
stripped completion the OpenAI call returns for the diff prompt (consulted
only when `commit_message` is falsy); `addExit`, `commitExit` and `pushExit`
are the exit statuses of the three `subprocess.run` invocations.  The source
calls `subprocess.run` without `check=True` and discards every
`CompletedProcess`, so the exit statuses influence neither the step trace nor
the returned message.  The result is the ordered list of performed steps
paired with the returned commit message (line 40). -/
def commit_and_push_changes (commit_message : Option (List Char))
    (genMsg : List Char) (addExit commitExit pushExit : Int) :
    List GitStep × List Char :=
  if pyFalsy commit_message then
    ([GitStep.readDiff, GitStep.genMessage, GitStep.add,
      GitStep.commit genMsg, GitStep.push], genMsg)
  else
    ([GitStep.add, GitStep.commit (commit_message.getD []), GitStep.push],
      commit_message.getD [])

/-- C7 (counterexample): `commit_and_push_changes` reports exactly the same
success-shaped result (step trace and returned message) when `git push`
exits with status 1 as when every git command succeeds — a failing push is
swallowed silently. -/
theorem C7_report_counterexample :
    commit_and_push_changes (some ['m']) ['g'] 0 0 1
      = commit_and_push_changes (some ['m']) ['g'] 0 0 0 ∧
    (commit_and_push_changes (some ['m']) ['g'] 0 0 1).2 = ['m'] := by
  decide

/-- C7 (amended): `create_github_issue_from_error_log` does report the HTTP
outcome (status code and resulting URL) in its result, and
`create_pull_request` returns the API response body (whatever the HTTP
status was — the status itself is never inspected); but
`commit_and_push_changes` reports only the commit message: its result is
identical whatever the exit statuses of staging, committing and pushing, so
a non-success git status is not reported. -/
theorem C7_report_amended :
    (∀ m g e1 e2 e3 f1 f2 f3,
      commit_and_push_changes m g e1 e2 e3 = commit_and_push_changes m g f1 f2 f3) ∧
    (∀ bo tl bd br c s j, create_pull_request_result bo tl bd br c s j
        = (create_pull_request bo tl bd br c, j)) ∧
    (∀ r t b ls status htmlUrl, issueMatch r = some (t, b, ls) →
      create_github_issue_from_error_log r status htmlUrl
        = IssueResult.posted t b ((splitComma ls).map pyStrip) status htmlUrl) := by
  refine ⟨?_, ?_, ?_⟩
  · intro m g e1 e2 e3 f1 f2 f3
    unfold commit_and_push_changes
    rfl
  · intro bo tl bd br c s j
    rfl
  · intro r t b ls status htmlUrl h
    unfold create_github_issue_from_error_log issueExtract
    rw [h]

/-- C7 witness: a concrete parse success carries the given HTTP status and
URL through to the result. -/
theorem C7_report_amended_witness :
    create_github_issue_from_error_log
        "Title: t\n\nBody: b\n\nLabels: l".toList 422 (some "u".toList)
      = IssueResult.posted ['t'] ['b'] [['l']] 422 (some "u".toList) :=
  C7_report_amended.2.2 "Title: t\n\nBody: b\n\nLabels: l".toList
    ['t'] ['b'] ['l'] 422 (some "u".toList) (by decide)

/-- The two credentials read at process start (git_helper.py lines 15-16),
each `none` when the environment variable is absent. -/
structure Config where
  githubToken : Option (List Char)
  openaiApiKey : Option (List Char)
deriving DecidableEq

/-- Outcome of process start.  `configError` expresses the fail-fast outcome
the specification claims for a missing credential; `proceeded` means
execution continues with the credentials as read. -/
inductive StartupOutcome
  | configError
  | proceeded (cfg : Config)
deriving DecidableEq

/-- git_helper.py lines 15-18: the credentials are read with
`os.environ.get`, which returns `None` when the variable is absent, and no
validation follows (`openai.api_key` is simply assigned), so startup never
fails: there is no code path producing `configError`. -/
def processStart (githubEnv openaiEnv : Option (List Char)) : StartupOutcome :=
  StartupOutcome.proceeded ⟨githubEnv, openaiEnv⟩

/-- Python f-string interpolation of a possibly-`None` value: `None` renders
as the four characters `None`. -/
def pyFormatOpt (o : Option (List Char)) : List Char :=
  match o with
  | none => "None".toList
  | some s => s

/-- `f"token {GITHUB_TOKEN}"`, the Authorization header of
`create_pull_request` (git_helper.py line 58). -/
def prAuthHeader (tok : Option (List Char)) : List Char :=
  "token ".toList ++ pyFormatOpt tok

/-- `f"Bearer {GITHUB_TOKEN}"`, the Authorization header of
`create_github_issue_from_error_log` (git_helper.py line 136). -/
def issueAuthHeader (tok : Option (List Char)) : List Char :=
  "Bearer ".toList ++ pyFormatOpt tok

/-- C8 (counterexample): with both credentials absent, process start does not
produce the claimed ConfigurationError — it proceeds, carrying `none` for
both credentials. -/
theorem C8_failfast_counterexample :
    processStart none none = StartupOutcome.proceeded ⟨none, none⟩ ∧
    processStart none none ≠ StartupOutcome.configError := by
  decide

/-- C8 (amended): a missing credential is NOT detected at process start —
startup always proceeds, carrying the absent credential as `None` — and the
failure is deferred to first use, where the absent token is interpolated
into the Authorization headers as the literal text `None`. -/
theorem C8_failfast_amended :
    (∀ g k, processStart g k = StartupOutcome.proceeded ⟨g, k⟩) ∧
    prAuthHeader none = "token None".toList ∧
    issueAuthHeader none = "Bearer None".toList :=
  ⟨fun g k => rfl, by decide, by decide⟩

/-- The single command form the CLI accepts: one natural-language
instruction for the model-driven path. -/
inductive CliCommand
  | instruction (text : List Char)
deriving DecidableEq

/-- git_helper.py lines 226-234: the argparse CLI defines exactly one
required positional argument `instructions` and no options.  A vector of one
token not beginning with `-` parses to that instruction; anything else
(missing argument, extra arguments, or a token argparse treats as an unknown
option flag) is an argparse error, modelled as `none`.  No
operation-name / `--message` form exists. -/
def parseCli (argv : List (List Char)) : Option CliCommand :=
  match argv with
  | [a] => if a.head? = some '-' then none else some (CliCommand.instruction a)
  | _ => none

/-- C9 (counterexample): the claimed direct-invocation form
(`operation name` plus optional message) is not available: the CLI rejects
`commit_and_push_changes --message fix`, and a lone operation name is parsed
as a natural-language instruction routed through the model, not as a direct
invocation. -/
theorem C9_direct_path_counterexample :
    parseCli ["commit_and_push_changes".toList, "--message".toList, "fix".toList]
      = none ∧
    parseCli ["commit_and_push_changes".toList]
      = some (CliCommand.instruction "commit_and_push_changes".toList) := by
  decide

/-- C9 (amended): invoking `commit_and_push_changes` directly (as a Python
call) with no message synthesizes the commit message via the generative step
and then stages, commits and pushes, in that order, with no step skipped;
but the CLI exposes no direct-invocation path: every argument vector it
accepts parses to a single natural-language instruction for the model-driven
path. -/
theorem C9_direct_path_amended :
    (∀ g e1 e2 e3, commit_and_push_changes none g e1 e2 e3
      = ([GitStep.readDiff, GitStep.genMessage, GitStep.add,
          GitStep.commit g, GitStep.push], g)) ∧
    (∀ argv cmd, parseCli argv = some cmd →
      ∃ t, cmd = CliCommand.instruction t) := by
  constructor
  · intro g e1 e2 e3
    rfl
  · intro argv cmd h
    rcases argv with _ | ⟨a, _ | ⟨a2, rest⟩⟩
    · simp [parseCli] at h
    · rw [show parseCli [a]
          = if a.head? = some '-' then none else some (CliCommand.instruction a)
          from rfl] at h
      by_cases hh : a.head? = some '-'
      · rw [if_pos hh] at h
        exact absurd h (by simp)
      · rw [if_neg hh] at h
        simp only [Option.some.injEq] at h
        exact ⟨a, h.symm⟩
    · simp [parseCli] at h

/-- C9 witness: the amended theorem applied to the concrete argument vector
`["push my work"]`, which parses as an instruction. -/
theorem C9_direct_path_amended_witness :
    ∃ t, CliCommand.instruction "push my work".toList = CliCommand.instruction t :=
  C9_direct_path_amended.2 ["push my work".toList]
    (CliCommand.instruction "push my work".toList) (by decide)

/-- C10: an explicitly supplied empty-string commit message is treated the
same as an absent one: `not commit_message` is true for `""` (git_helper.py
line 27), so the generative synthesis step runs and its output — not the
empty string — is used as the commit message and returned. -/
theorem C10_empty_message (g : List Char) (e1 e2 e3 : Int) :
    commit_and_push_changes (some []) g e1 e2 e3
        = commit_and_push_changes none g e1 e2 e3 ∧
    (commit_and_push_changes (some []) g e1 e2 e3).2 = g ∧
    GitStep.genMessage ∈ (commit_and_push_changes (some []) g e1 e2 e3).1 := by
  refine ⟨rfl, rfl, ?_⟩
  simp [commit_and_push_changes, pyFalsy]

/-- The six operation names of the `tools` catalog (git_helper.py lines
142-224); the `__main__` dispatch chain (lines 259-282) tests exactly these
names, in the same order. -/
def toolNames : List (List Char) :=
  ["commit_and_push_changes".toList, "create_pull_request".toList,
   "explain_changes".toList, "suggest_review_comments".toList,
   "summarize_todos".toList, "generate_release_notes".toList]

/-- A decoded string-to-string argument mapping: the result of
`json.loads(tool_call.function.arguments)` when decoding succeeds. -/
abbrev ArgMap := List (List Char × List Char)

/-- One tool call of the model response (git_helper.py lines 256-258):
`functionName` is `tool_call.function.name`; `decodedArgs` is the outcome of
`json.loads` on the raw argument payload, with `none` modelling an
undecodable payload (a raised `JSONDecodeError`). -/
structure InvocationRequest where
  functionName : List Char
  decodedArgs : Option ArgMap
deriving DecidableEq

/-- Observable events of one dispatch-loop run: an executor invocation
(with its operation name), or an uncaught exception, which terminates the
process and hence the loop. -/
inductive DispatchEvent
  | invoked (name : List Char)
  | raised
deriving DecidableEq

/-- The `__main__` dispatch loop (git_helper.py lines 255-282): for each tool
call, in the order received, `json.loads` decodes the arguments (an
undecodable payload raises, aborting the whole loop), then the if/elif chain
tests the function name.  A matching branch invokes the executor;
`execRaises` says whether that executor raises an uncaught exception (e.g. a
failing `subprocess.check_output` or OpenAI call), which also aborts the
loop.  The chain has NO else branch: a name outside `toolNames` runs nothing
and the loop moves to the next request. -/
def dispatchLoop (execRaises : List Char → Bool) :
    List InvocationRequest → List DispatchEvent
  | [] => []
  | r :: rs =>
    match r.decodedArgs with
    | none => [DispatchEvent.raised]
    | some _ =>
      if r.functionName ∈ toolNames then
        if execRaises r.functionName then
          [DispatchEvent.invoked r.functionName, DispatchEvent.raised]
        else
          DispatchEvent.invoked r.functionName :: dispatchLoop execRaises rs
      else
        dispatchLoop execRaises rs

/-- C1 (counterexample): a request naming
`create_github_issue_from_error_log` — an operation absent from the catalog
— produces NO dispatch-error report: the batch behaves exactly as if the
request were not there, and a lone unmatched request produces no event at
all (a silent no-op). -/
theorem C1_unknown_op_counterexample :
    dispatchLoop (fun _ => false)
        [⟨"create_github_issue_from_error_log".toList, some []⟩,
         ⟨"explain_changes".toList, some []⟩]
      = dispatchLoop (fun _ => false) [⟨"explain_changes".toList, some []⟩] ∧
    dispatchLoop (fun _ => false)
        [⟨"create_github_issue_from_error_log".toList, some []⟩] = [] := by
  decide

/-- C1 (amended): a request whose operation name matches no catalog entry is
SILENTLY skipped — no executor invocation and no error report — and the
remaining requests of the batch are still processed exactly as if the
unmatched request were absent. -/
theorem C1_unknown_op_amended (execRaises : List Char → Bool)
    (r : InvocationRequest) (rs : List InvocationRequest) (m : ArgMap)
    (hdec : r.decodedArgs = some m) (hname : r.functionName ∉ toolNames) :
    dispatchLoop execRaises (r :: rs) = dispatchLoop execRaises rs := by
  simp only [dispatchLoop, hdec]
  rw [if_neg hname]

/-- C1 witness: the amended theorem applied to a concrete unmatched request
followed by a catalog request. -/
theorem C1_unknown_op_amended_witness :
    dispatchLoop (fun _ => false)
        [⟨"create_github_issue_from_error_log".toList, some [(['k'], ['v'])]⟩,
         ⟨"summarize_todos".toList, some []⟩]
      = dispatchLoop (fun _ => false) [⟨"summarize_todos".toList, some []⟩] :=
  C1_unknown_op_amended (fun _ => false) _ _ [(['k'], ['v'])] rfl (by decide)

/-- C2 (counterexample): when A's argument payload is undecodable,
`json.loads` raises and the loop dies: B's executor is never invoked, so B
is NOT "still invoked even if A's request fails". -/
theorem C2_order_counterexample :
    dispatchLoop (fun _ => false)
        [⟨"commit_and_push_changes".toList, none⟩,
         ⟨"explain_changes".toList, some []⟩]
      = [DispatchEvent.raised] ∧
    DispatchEvent.invoked "explain_changes".toList ∉
      dispatchLoop (fun _ => false)
        [⟨"commit_and_push_changes".toList, none⟩,
         ⟨"explain_changes".toList, some []⟩] := by
  decide

/-- C2 (amended): requests are executed strictly sequentially in the order
received — when A succeeds, A's executor is invoked (side effects included)
before any event of B — but if A fails (undecodable payload, or an executor
exception), the loop aborts and B's executor is NOT invoked. -/
theorem C2_order_amended (execRaises : List Char → Bool)
    (A B : InvocationRequest) :
    (∀ m, A.decodedArgs = some m → A.functionName ∈ toolNames →
      execRaises A.functionName = false →
      dispatchLoop execRaises [A, B]
        = DispatchEvent.invoked A.functionName :: dispatchLoop execRaises [B]) ∧
    (A.decodedArgs = none →
      dispatchLoop execRaises [A, B] = [DispatchEvent.raised]) ∧
    (∀ m, A.decodedArgs = some m → A.functionName ∈ toolNames →
      execRaises A.functionName = true →
      dispatchLoop execRaises [A, B]
        = [DispatchEvent.invoked A.functionName, DispatchEvent.raised]) := by
  refine ⟨?_, ?_, ?_⟩
  · intro m hdec hmem hex
    conv_lhs => rw [dispatchLoop]
    simp only [hdec]
    rw [if_pos hmem, if_neg (by simp [hex])]
  · intro hdec
    rw [dispatchLoop]
    simp only [hdec]
  · intro m hdec hmem hex
    rw [dispatchLoop]
    simp only [hdec]
    rw [if_pos hmem, if_pos hex]

/-- C2 witness: the three parts of the amended theorem at concrete batches —
a successful A precedes B's processing; an undecodable A aborts before B; an
executor exception in A aborts after A's invocation and before B. -/
theorem C2_order_amended_witness :
    dispatchLoop (fun _ => false)
        [⟨"commit_and_push_changes".toList, some []⟩,
         ⟨"explain_changes".toList, some []⟩]
      = DispatchEvent.invoked "commit_and_push_changes".toList ::
          dispatchLoop (fun _ => false) [⟨"explain_changes".toList, some []⟩] ∧
    dispatchLoop (fun _ => false)
        [⟨"bad".toList, none⟩, ⟨"explain_changes".toList, some []⟩]
      = [DispatchEvent.raised] ∧
    dispatchLoop (fun _ => true)
        [⟨"commit_and_push_changes".toList, some []⟩,
         ⟨"explain_changes".toList, some []⟩]
      = [DispatchEvent.invoked "commit_and_push_changes".toList,
         DispatchEvent.raised] :=
  ⟨(C2_order_amended (fun _ => false) _ _).1 [] rfl (by decide) rfl,
   (C2_order_amended (fun _ => false) _ _).2.1 rfl,
   (C2_order_amended (fun _ => true) _ _).2.2 [] rfl (by decide) rfl⟩
